import Mathlib

/-!
Verification of the warehouse allocation core of the market1 crate
(src/market1/src/warehouse.rs, with ProductItem from src/market1/src/product.rs).

Modelling conventions:
* `usize`/`u32` are modelled as `Nat`; `-=`/`+=` become truncated `Nat`
  subtraction / addition (no concrete run below ever underflows a counter
  that the original program would not also underflow).
* `chrono::NaiveDate` is modelled as `Nat` (a totally ordered date key;
  `NaiveDate::to_string` is injective, so grouping by the string key is
  grouping by the date).
* `&mut self` methods are modelled by explicit state passing: a mutating
  operation returns `Except ErrorKind Unit × State`, where the error branch
  carries the state as it stands when the `return Err(..)` executes.
* Rust `Vec` indexing (`v[i]`) is modelled with `List.get?`; an out-of-range
  access (a Rust panic) and a `while` loop that runs out of fuel both
  surface as `none` in the fuel-indexed loop models.
* `std::collections::HashMap` (used only in `group_items_by_expiration`)
  is modelled as an association list in key-first-insertion order; every
  theorem that touches it evaluates states with at most one group, where
  the arbitrary iteration order of the real `HashMap` cannot matter.
-/

namespace Market1

abbrev Pos := Nat × Nat × Nat

/-- Model of `ErrorKind` (warehouse.rs lines 45-55). -/
inductive ErrorKind where
  | InsufficientSpace
  | NoContiguousSpace
  | NoProductFound
  | ZoneNotFound (pos : Pos)
  | ZoneOccupied (pos : Pos)
  | ZoneEmpty (pos : Pos)
  | ColumnNotFound (pos : Nat × Nat)
  | RowNotFound (row : Nat)
deriving DecidableEq, Repr

/-- Model of `ProductItem` (product.rs lines 19-30); the expiry date is a `Nat` key. -/
structure ProductItem where
  id : Nat
  row : Nat
  column : Nat
  zone : Nat
  expiry_date : Option Nat
deriving DecidableEq, Repr

/-- Model of `ProductItem::new` (product.rs lines 144-158). -/
def ProductItem.new (product_id row column zone : Nat) (expiry_date : Option Nat) : ProductItem :=
  { id := product_id, row := row, column := column, zone := zone, expiry_date := expiry_date }

/-- Model of `ProductItem::copy_at_zone` (product.rs lines 178-187). -/
def ProductItem.copy_at_zone (item : ProductItem) (row column zone : Nat) : ProductItem :=
  { id := item.id, row := row, column := column, zone := zone, expiry_date := item.expiry_date }

/-- Model of `Zone` (warehouse.rs lines 10-16). -/
structure Zone where
  zone_number : Nat
  column_number : Nat
  row_number : Nat
  item : Option ProductItem
deriving DecidableEq, Repr

/-- Model of `Zone::new` (warehouse.rs lines 149-161). -/
def Zone.new (zone_number column_number row_number : Nat) (item : Option ProductItem) : Zone :=
  { zone_number := zone_number
    column_number := column_number
    row_number := row_number
    item := item }

/-- Model of `Zone::add` (warehouse.rs lines 163-173). -/
def Zone.add (z : Zone) (item : ProductItem) : Except ErrorKind Unit × Zone :=
  if z.item.isSome then
    (.error (.ZoneOccupied (z.row_number, z.column_number, z.zone_number)), z)
  else
    (.ok (), { z with item := some item })

/-- Model of `Zone::remove` (warehouse.rs lines 175-185). -/
def Zone.remove (z : Zone) : Except ErrorKind Unit × Zone :=
  if z.item.isNone then
    (.error (.ZoneEmpty (z.row_number, z.column_number, z.zone_number)), z)
  else
    (.ok (), { z with item := none })

/-- Model of `Zone::is_empty` (warehouse.rs lines 187-189). -/
def Zone.is_empty (z : Zone) : Bool := z.item.isNone

/-- Model of `Column` (warehouse.rs lines 18-25). -/
structure Column where
  column_number : Nat
  row_number : Nat
  capacity : Nat
  available_space : Nat
  zones : List Zone
deriving DecidableEq, Repr

/-- Model of `Row` (warehouse.rs lines 27-34). -/
structure Row where
  row_number : Nat
  column_count : Nat
  capacity : Nat
  available_space : Nat
  columns : List Column
deriving DecidableEq, Repr

/-- Model of `Warehouse` (warehouse.rs lines 36-43). -/
structure Warehouse where
  row_count : Nat
  column_count : Nat
  capacity : Nat
  available_space : Nat
  rows : List Row
deriving DecidableEq, Repr

/-- Mutation through `iter_mut().find(p)`: apply `f` to the first element
satisfying `p`, returning `f`'s side value and the updated list, or `none`
when no element matches. -/
def mutFirst {α β : Type} (p : α → Bool) (f : α → β × α) : List α → Option (β × List α)
  | [] => none
  | x :: xs =>
    if p x then
      some ((f x).1, (f x).2 :: xs)
    else
      match mutFirst p f xs with
      | none => none
      | some (b, xs') => some (b, x :: xs')

/-- Mutation through `iter_mut().find(p)` whose body can itself fail to find
its target (the nested `zone_mut` lookups): the first element satisfying `p`
is given to `f`; if `f` fails the whole lookup fails. -/
def mutFirstOpt {α β : Type} (p : α → Bool) (f : α → Option (β × α)) : List α → Option (β × List α)
  | [] => none
  | x :: xs =>
    if p x then
      match f x with
      | none => none
      | some (b, x') => some (b, x' :: xs)
    else
      match mutFirstOpt p f xs with
      | none => none
      | some (b, xs') => some (b, x :: xs')

/-- Model of `Column::new` (warehouse.rs lines 198-206). -/
def Column.new (column_number row_number : Nat) : Column :=
  { column_number := column_number
    row_number := row_number
    capacity := 0
    available_space := 0
    zones := [] }

/-- Model of `Column::add_zone` (warehouse.rs lines 208-212). -/
def Column.add_zone (col : Column) (zone : Zone) : Column :=
  { col with
    zones := col.zones ++ [zone]
    available_space := col.available_space + 1
    capacity := col.capacity + 1 }

/-- Model of `Column::zone` (warehouse.rs lines 233-237): lookup by `zone_number` field. -/
def Column.zone (col : Column) (zone_number : Nat) : Option Zone :=
  col.zones.find? (fun z => z.zone_number == zone_number)

/-- Model of `Column::get_item` (warehouse.rs lines 333-338). -/
def Column.get_item (col : Column) (zone_number : Nat) : Option ProductItem :=
  (col.zone zone_number).bind (fun z => z.item)

/-- Model of `Column::contains_product` (warehouse.rs lines 347-355). -/
def Column.contains_product (col : Column) (product_id : Nat) : Bool :=
  col.zones.any (fun z =>
    match z.item with
    | some item => item.id == product_id
    | none => false)

/-- Model of `Column::find_all_item_occurences` (warehouse.rs lines 377-393):
returns the 0-based positional indices of the zones holding the product. -/
def Column.find_all_item_occurences (col : Column) (product_id : Nat) : List Nat :=
  col.zones.enum.filterMap (fun iz =>
    match iz.2.item with
    | some item => if item.id == product_id then some iz.1 else none
    | none => none)

/-- Model of `Column::flat_map` (warehouse.rs lines 273-278). -/
def Column.flat_map (col : Column) : List Char :=
  col.zones.map (fun z => if z.is_empty then '0' else '1')

/-- Model of `Column::add_item` (warehouse.rs lines 297-313). -/
def Column.add_item (col : Column) (zone_number : Nat) (item : ProductItem) :
    Except ErrorKind Unit × Column :=
  match mutFirst (fun z => z.zone_number == zone_number) (fun z => z.add item) col.zones with
  | some (Except.ok _, zones') =>
      (.ok (), { col with zones := zones', available_space := col.available_space - 1 })
  | some (Except.error e, zones') => (.error e, { col with zones := zones' })
  | none => (.error (.ZoneNotFound (col.row_number, col.column_number, zone_number)), col)

/-- Model of `Column::remove_item` (warehouse.rs lines 315-331). -/
def Column.remove_item (col : Column) (zone_number : Nat) : Except ErrorKind Unit × Column :=
  match mutFirst (fun z => z.zone_number == zone_number) (fun z => z.remove) col.zones with
  | some (Except.ok _, zones') =>
      (.ok (), { col with zones := zones', available_space := col.available_space + 1 })
  | some (Except.error e, zones') => (.error e, { col with zones := zones' })
  | none => (.error (.ZoneNotFound (col.row_number, col.column_number, zone_number)), col)

/-- Model of `Column::zone_mut` followed by a mutation of the found zone. -/
def Column.with_zone_mut {α : Type} (col : Column) (zone_number : Nat) (f : Zone → α × Zone) :
    Option (α × Column) :=
  match mutFirst (fun z => z.zone_number == zone_number) f col.zones with
  | none => none
  | some (a, zones') => some (a, { col with zones := zones' })

/-- Model of `Column::initialize_zones` (warehouse.rs lines 290-295). -/
def Column.initialize_zones (col : Column) (zone_count : Nat) : Column :=
  (List.range zone_count).foldl
    (fun c i => c.add_zone (Zone.new (i + 1) c.column_number c.row_number none)) col

/-- Model of `Row::new` (warehouse.rs lines 398-406). -/
def Row.new (row_number : Nat) : Row :=
  { row_number := row_number
    column_count := 0
    capacity := 0
    available_space := 0
    columns := [] }

/-- Model of `Row::add_column` (warehouse.rs lines 408-413). -/
def Row.add_column (row : Row) (column : Column) : Row :=
  { row with
    column_count := row.column_count + 1
    capacity := row.capacity + column.capacity
    available_space := row.available_space + column.available_space
    columns := row.columns ++ [column] }

/-- Model of `Row::column` (warehouse.rs lines 448-452): lookup by `column_number` field. -/
def Row.column (row : Row) (column_number : Nat) : Option Column :=
  row.columns.find? (fun c => c.column_number == column_number)

/-- Model of `Row::zone` (warehouse.rs lines 434-439). -/
def Row.zone (row : Row) (column_number zone_number : Nat) : Option Zone :=
  (row.column column_number).bind (fun col => col.zone zone_number)

/-- Model of `Row::item` (warehouse.rs lines 554-559). -/
def Row.item (row : Row) (column_number zone_number : Nat) : Option ProductItem :=
  (row.column column_number).bind (fun col => col.get_item zone_number)

/-- Model of `Row::contains_product` (warehouse.rs lines 493-497). -/
def Row.contains_product (row : Row) (product_id : Nat) : Bool :=
  row.columns.any (fun col => col.contains_product product_id)

/-- Model of `Row::find_all_item_occurences` (warehouse.rs lines 600-611):
pairs each hit with the 0-based positional index of its column. -/
def Row.find_all_item_occurences (row : Row) (product_id : Nat) : List (Nat × Nat) :=
  row.columns.enum.flatMap (fun ic =>
    (ic.2.find_all_item_occurences product_id).map (fun zi => (ic.1, zi)))

/-- Model of `Row::flat_map` (warehouse.rs lines 485-491). -/
def Row.flat_map (row : Row) : List Char :=
  row.columns.flatMap Column.flat_map

/-- Model of `Row::add_item` (warehouse.rs lines 511-531). -/
def Row.add_item (row : Row) (column_number zone_number : Nat) (item : ProductItem) :
    Except ErrorKind Unit × Row :=
  match mutFirst (fun c => c.column_number == column_number)
      (fun c => c.add_item zone_number item) row.columns with
  | some (Except.ok _, cols') =>
      (.ok (), { row with columns := cols', available_space := row.available_space - 1 })
  | some (Except.error e, cols') => (.error e, { row with columns := cols' })
  | none => (.error (.ColumnNotFound (row.row_number, column_number)), row)

/-- Model of `Row::remove_item` (warehouse.rs lines 533-552). -/
def Row.remove_item (row : Row) (column_number zone_number : Nat) :
    Except ErrorKind Unit × Row :=
  match mutFirst (fun c => c.column_number == column_number)
      (fun c => c.remove_item zone_number) row.columns with
  | some (Except.ok _, cols') =>
      (.ok (), { row with columns := cols', available_space := row.available_space + 1 })
  | some (Except.error e, cols') => (.error e, { row with columns := cols' })
  | none => (.error (.ColumnNotFound (row.row_number, column_number)), row)

/-- Model of `Row::zone_mut` followed by a mutation of the found zone. -/
def Row.with_zone_mut {α : Type} (row : Row) (column_number zone_number : Nat)
    (f : Zone → α × Zone) : Option (α × Row) :=
  match mutFirstOpt (fun c => c.column_number == column_number)
      (fun c => c.with_zone_mut zone_number f) row.columns with
  | none => none
  | some (a, cols') => some (a, { row with columns := cols' })

/-- Model of `Row::initialize_columns` (warehouse.rs lines 503-509). -/
def Row.initialize_columns (row : Row) (column_count zone_per_col : Nat) : Row :=
  (List.range column_count).foldl
    (fun r i => r.add_column ((Column.new (i + 1) r.row_number).initialize_zones zone_per_col))
    row

/-- Model of `Warehouse::new` (warehouse.rs lines 616-624). -/
def Warehouse.new : Warehouse :=
  { row_count := 0, column_count := 0, capacity := 0, available_space := 0, rows := [] }

/-- Model of `Warehouse::add_row` (warehouse.rs lines 626-632). -/
def Warehouse.add_row (w : Warehouse) (row : Row) : Warehouse :=
  { w with
    row_count := w.row_count + 1
    capacity := w.capacity + row.capacity
    available_space := w.available_space + row.available_space
    column_count := w.column_count + row.columns.length
    rows := w.rows ++ [row] }

/-- Model of `Warehouse::row` (warehouse.rs lines 671-673): lookup by `row_number` field. -/
def Warehouse.row (w : Warehouse) (row_number : Nat) : Option Row :=
  w.rows.find? (fun r => r.row_number == row_number)

/-- Model of `Warehouse::zone` (warehouse.rs lines 647-657). -/
def Warehouse.zone (w : Warehouse) (row_number column_number zone_number : Nat) : Option Zone :=
  (w.row row_number).bind (fun r => r.zone column_number zone_number)

/-- Model of `Warehouse::get_item` (warehouse.rs lines 778-788). -/
def Warehouse.get_item (w : Warehouse) (row_number column_number zone_number : Nat) :
    Option ProductItem :=
  (w.row row_number).bind (fun r => r.item column_number zone_number)

/-- Model of `Warehouse::contains_product` (warehouse.rs lines 735-737). -/
def Warehouse.contains_product (w : Warehouse) (product_id : Nat) : Bool :=
  w.rows.any (fun r => r.contains_product product_id)

/-- Model of `Warehouse::find_all_item_occurences` (warehouse.rs lines 822-833):
pairs the 1-based `row_number` field with the 0-based column and zone indices
coming from the row-level scan. -/
def Warehouse.find_all_item_occurences (w : Warehouse) (product_id : Nat) : List Pos :=
  w.rows.flatMap (fun r =>
    (r.find_all_item_occurences product_id).map (fun p => (r.row_number, p.1, p.2)))

/-- Model of `Warehouse::flat_map` (warehouse.rs lines 694-700). -/
def Warehouse.flat_map (w : Warehouse) : List Char :=
  w.rows.flatMap Row.flat_map

/-- Inner column walk of `Warehouse::flat_map_position_to_zone`
(warehouse.rs lines 711-719), carrying the enumerate index and the
cumulative zone count exactly as the source loop does. -/
def colSearch (relative_position : Nat) : List Column → Nat → Nat → Option (Nat × Nat)
  | [], _, _ => none
  | col :: rest, column_index, column_cumulative_zones =>
    if relative_position < column_cumulative_zones + col.capacity then
      some (column_index, relative_position - column_cumulative_zones)
    else
      colSearch relative_position rest (column_index + 1) (column_cumulative_zones + col.capacity)

/-- Outer row walk of `Warehouse::flat_map_position_to_zone`
(warehouse.rs lines 702-725). A row whose inner walk falls through
continues the outer walk with the cumulative capacity advanced, exactly
like the source's nested loops. -/
def rowSearch (position : Nat) : List Row → Nat → Nat → Option Pos
  | [], _, _ => none
  | row :: rest, row_index, cumulative_capacity =>
    let row_zone_count := (row.columns.map Column.capacity).sum
    if position < cumulative_capacity + row_zone_count then
      match colSearch (position - cumulative_capacity) row.columns 0 0 with
      | some ci_zi => some (row_index + 1, ci_zi.1 + 1, ci_zi.2 + 1)
      | none => rowSearch position rest (row_index + 1) (cumulative_capacity + row_zone_count)
    else
      rowSearch position rest (row_index + 1) (cumulative_capacity + row_zone_count)

/-- Model of `Warehouse::flat_map_position_to_zone` (warehouse.rs lines 702-725). -/
def Warehouse.flat_map_position_to_zone (w : Warehouse) (position : Nat) : Option Pos :=
  rowSearch position w.rows 0 0

/-- Model of `Warehouse::initialize_rows` (warehouse.rs lines 727-733). -/
def Warehouse.initialize_rows (w : Warehouse) (row_count col_per_row zone_per_col : Nat) :
    Warehouse :=
  (List.range row_count).foldl
    (fun acc i => acc.add_row ((Row.new (i + 1)).initialize_columns col_per_row zone_per_col))
    w

/-- Model of `Warehouse::add_item` (warehouse.rs lines 739-757). -/
def Warehouse.add_item (w : Warehouse) (row_number column_number zone_number : Nat)
    (item : ProductItem) : Except ErrorKind Unit × Warehouse :=
  match mutFirst (fun r => r.row_number == row_number)
      (fun r => r.add_item column_number zone_number item) w.rows with
  | some (Except.ok _, rows') =>
      (.ok (), { w with rows := rows', available_space := w.available_space - 1 })
  | some (Except.error e, rows') => (.error e, { w with rows := rows' })
  | none => (.error (.RowNotFound row_number), w)

/-- Model of `Warehouse::remove_item` (warehouse.rs lines 759-776). -/
def Warehouse.remove_item (w : Warehouse) (row_number column_number zone_number : Nat) :
    Except ErrorKind Unit × Warehouse :=
  match mutFirst (fun r => r.row_number == row_number)
      (fun r => r.remove_item column_number zone_number) w.rows with
  | some (Except.ok _, rows') =>
      (.ok (), { w with rows := rows', available_space := w.available_space + 1 })
  | some (Except.error e, rows') => (.error e, { w with rows := rows' })
  | none => (.error (.RowNotFound row_number), w)

/-- Model of `Warehouse::zone_mut` followed by a mutation of the found zone. -/
def Warehouse.with_zone_mut {α : Type} (w : Warehouse) (row_number column_number zone_number : Nat)
    (f : Zone → α × Zone) : Option (α × Warehouse) :=
  match mutFirstOpt (fun r => r.row_number == row_number)
      (fun r => r.with_zone_mut column_number zone_number f) w.rows with
  | none => none
  | some (a, rows') => some (a, { w with rows := rows' })

/-- Adjacent-pair check shared by the three early-return loops of
`Warehouse::is_product_stored_contiguously` (warehouse.rs lines 845-861). -/
def adjAll (p : Pos → Pos → Bool) : List Pos → Bool
  | [] => true
  | [_] => true
  | a :: b :: rest => p a b && adjAll p (b :: rest)

/-- Model of `Warehouse::is_product_stored_contiguously` (warehouse.rs lines 835-864). -/
def Warehouse.is_product_stored_contiguously (w : Warehouse) (product_id : Nat) : Bool :=
  let item_list := w.find_all_item_occurences product_id
  if item_list.isEmpty then false
  else if item_list.length == 1 then true
  else
    adjAll (fun a b => a.1 == b.1) item_list &&
    adjAll (fun a b => a.2.1 == b.2.1) item_list &&
    adjAll (fun a b => b.2.2 == a.2.2 + 1) item_list

/-- Model of Rust `str::find` with a literal pattern: the least index at
which `needle` occurs as a contiguous substring of the haystack. -/
def strFind (needle : List Char) : List Char → Option Nat
  | [] => if needle.isEmpty then some 0 else none
  | c :: rest =>
    if needle.isPrefixOf (c :: rest) then some 0
    else (strFind needle rest).map (· + 1)

/-- Model of `Warehouse::find_contiguous_space` (warehouse.rs lines 1111-1129).
The source takes `&mut self` but never mutates. -/
def Warehouse.find_contiguous_space (w : Warehouse) (required_space : Nat) :
    Except ErrorKind Pos :=
  if required_space > w.available_space then
    .error .InsufficientSpace
  else
    match strFind (List.replicate required_space '0') w.flat_map with
    | some position =>
      match w.flat_map_position_to_zone position with
      | some zone => .ok zone
      | none => .error .NoContiguousSpace
    | none => .error .NoContiguousSpace

/-- Result-kind projection used to state evaluation facts. -/
def isOkb : Except ErrorKind Unit → Bool
  | .ok _ => true
  | .error _ => false

/-- Model of `Warehouse::move_item` (warehouse.rs lines 1007-1038): read the
source zone, place a copy of its occupant at the destination, and only on
success remove the source. -/
def Warehouse.move_item (w : Warehouse) (current_zone new_zone : Pos) :
    Except ErrorKind Unit × Warehouse :=
  match w.zone current_zone.1 current_zone.2.1 current_zone.2.2 with
  | some zn =>
    match zn.item with
    | some item =>
      let new_item := item.copy_at_zone new_zone.1 new_zone.2.1 new_zone.2.2
      match w.add_item new_zone.1 new_zone.2.1 new_zone.2.2 new_item with
      | (Except.ok _, w1) => w1.remove_item current_zone.1 current_zone.2.1 current_zone.2.2
      | (Except.error e, w1) => (.error e, w1)
    | none => (.error (.ZoneEmpty current_zone), w)
  | none => (.error (.ZoneNotFound current_zone), w)

/-- Stable ascending insertion by date key: models `sort_by(|a, b| a.1.cmp(&b.1))`
(stable in Rust; all concrete states below carry distinct dates, where the
two agree). -/
def insertByDate (x : Pos × Nat) : List (Pos × Nat) → List (Pos × Nat)
  | [] => [x]
  | y :: ys => if y.2 ≤ x.2 then y :: insertByDate x ys else x :: y :: ys

/-- Stable ascending sort by date key. -/
def sortByDate (l : List (Pos × Nat)) : List (Pos × Nat) :=
  l.foldr insertByDate []

/-- Early-return removal sweep of `Warehouse::remove_all_items`
(warehouse.rs lines 1189-1194). -/
def removeAllLoop (w : Warehouse) : List Pos → Except ErrorKind Unit × Warehouse
  | [] => (.ok (), w)
  | p :: rest =>
    match w.remove_item p.1 p.2.1 p.2.2 with
    | (Except.ok _, w1) => removeAllLoop w1 rest
    | (Except.error e, w1) => (.error e, w1)

/-- Model of `Warehouse::remove_all_items` (warehouse.rs lines 1186-1199). -/
def Warehouse.remove_all_items (w : Warehouse) (product_id : Nat) :
    Except ErrorKind Unit × Warehouse :=
  let items := w.find_all_item_occurences product_id
  if items.isEmpty then (.error .NoProductFound, w)
  else removeAllLoop w items

/-- Early-return removal sweep over the first `qty` dated occupants
(warehouse.rs lines 1065-1075). -/
def removeDatedLoop (w : Warehouse) : List (Pos × Nat) → Except ErrorKind Unit × Warehouse
  | [] => (.ok (), w)
  | (p, _) :: rest =>
    match w.remove_item p.1 p.2.1 p.2.2 with
    | (Except.ok _, w1) => removeDatedLoop w1 rest
    | (Except.error e, w1) => (.error e, w1)

/-- Model of `Warehouse::remove_item_by_qty` (warehouse.rs lines 1050-1084). -/
def Warehouse.remove_item_by_qty (w : Warehouse) (product_id qty : Nat) :
    Except ErrorKind Unit × Warehouse :=
  let items := w.find_all_item_occurences product_id
  let items_with_dates := sortByDate (items.filterMap (fun p =>
    (w.get_item p.1 p.2.1 p.2.2).bind (fun item =>
      item.expiry_date.map (fun date => (p, date)))))
  if items_with_dates.length ≥ qty then
    removeDatedLoop w (items_with_dates.take qty)
  else
    w.remove_all_items product_id

/-- The `entry(key).or_default().push(..)` step of
`group_items_by_expiration`, on the association-list model of the HashMap. -/
def addToGroup : List (Nat × List Pos) → Nat → Pos → List (Nat × List Pos)
  | [], d, p => [(d, [p])]
  | (k, ps) :: rest, d, p =>
    if k == d then (k, ps ++ [p]) :: rest else (k, ps) :: addToGroup rest d p

/-- Model of `Warehouse::group_items_by_expiration` (warehouse.rs lines
1086-1109): keep only positions whose `get_item` lookup yields a dated item,
sort ascending by date, group by date key. -/
def Warehouse.group_items_by_expiration (w : Warehouse) (items : List Pos) :
    List (Nat × List Pos) :=
  let list_with_items := items.filterMap (fun p =>
    (w.get_item p.1 p.2.1 p.2.2).bind (fun item =>
      item.expiry_date.map (fun date => (p, date))))
  let sorted := sortByDate list_with_items
  sorted.foldl (fun grouping pd => addToGroup grouping pd.2 pd.1) []

/-- Inner move sweep of `Warehouse::move_items_to_contiguous_space`
(warehouse.rs lines 1142-1161), over the concatenation of the groups.
The wraparound bounds read `rows[r]`/`columns[c]` with the 1-based cursor
values, exactly as the source does; an out-of-range read is a panic,
modelled as `none`. -/
def moveLoop (w : Warehouse) : List Pos → Nat → Nat → Nat →
    Option (Except ErrorKind Unit × Warehouse)
  | [], _, _, _ => some (.ok (), w)
  | p :: rest, r, c, z =>
    match w.move_item p (r, c, z) with
    | (Except.error e, w1) => some (.error e, w1)
    | (Except.ok _, w1) =>
      match (w1.rows.get? r).bind (fun rw => (rw.columns.get? c).map (fun col => (rw, col))) with
      | none => none
      | some (rw, col) =>
        if z + 1 == col.zones.length then
          if c + 1 == rw.columns.length then
            moveLoop w1 rest (r + 1) 0 0
          else
            moveLoop w1 rest r (c + 1) 0
        else
          moveLoop w1 rest r c (z + 1)

/-- Model of `Warehouse::move_items_to_contiguous_space`
(warehouse.rs lines 1131-1171). -/
def Warehouse.move_items_to_contiguous_space (w : Warehouse)
    (grouped_items : List (Nat × List Pos)) : Option (Except ErrorKind Unit × Warehouse) :=
  let required_space := (grouped_items.map (fun g => g.2.length)).sum
  match w.find_contiguous_space required_space with
  | Except.ok rcz => moveLoop w (grouped_items.flatMap (fun g => g.2)) rcz.1 rcz.2.1 rcz.2.2
  | Except.error e => some (.error e, w)

/-- Case A placement loop of `Warehouse::add_items_by_qty` (warehouse.rs
lines 885-908): place through `Warehouse::add_item` (which already
decrements the warehouse counter), then decrement `available_space` a
second time, then advance the cursor using `rows[r-1].columns[c-1]`. -/
def caseALoop (fuel : Nat) (w : Warehouse) (product_id qty : Nat) (expiry_date : Option Nat)
    (qty_added r c z : Nat) : Option (Except ErrorKind Unit × Warehouse) :=
  match fuel with
  | 0 => none
  | fuel + 1 =>
    if qty_added < qty then
      match w.add_item r c z (ProductItem.new product_id r c z expiry_date) with
      | (Except.error e, w1) => some (.error e, w1)
      | (Except.ok _, w1) =>
        let w2 := { w1 with available_space := w1.available_space - 1 }
        match (w2.rows.get? (r - 1)).bind
            (fun rw => (rw.columns.get? (c - 1)).map (fun col => (rw, col))) with
        | none => none
        | some (rw, col) =>
          if z + 1 == col.zones.length + 1 then
            if c + 1 == rw.columns.length + 1 then
              caseALoop fuel w2 product_id qty expiry_date (qty_added + 1) (r + 1) 1 1
            else
              caseALoop fuel w2 product_id qty expiry_date (qty_added + 1) r (c + 1) 1
          else
            caseALoop fuel w2 product_id qty expiry_date (qty_added + 1) r c (z + 1)
    else some (.ok (), w)

/-- Case B / Case C placement loop of `Warehouse::add_items_by_qty`
(warehouse.rs lines 925-948 and 971-994, which are identical): look the
cursor zone up through `zone_mut`, fill it when empty via `Zone::add`
(decrementing only the warehouse-level counter), and advance the cursor
using `rows[r].columns[c]`. A failed `zone_mut` lookup re-enters the loop
with nothing changed, exactly like the source's `if let Some`. -/
def fillLoop (fuel : Nat) (w : Warehouse) (product_id qty : Nat) (expiry_date : Option Nat)
    (qty_added r c z : Nat) : Option (Except ErrorKind Unit × Warehouse) :=
  match fuel with
  | 0 => none
  | fuel + 1 =>
    if qty_added < qty then
      match w.with_zone_mut r c z (fun zone =>
          if zone.is_empty then
            match zone.add (ProductItem.new product_id r c z expiry_date) with
            | (Except.ok _, zone') => ((true, (none : Option ErrorKind)), zone')
            | (Except.error e, zone') => ((false, some e), zone')
          else ((false, none), zone)) with
      | none => fillLoop fuel w product_id qty expiry_date qty_added r c z
      | some ((added, errOpt), w1) =>
        match errOpt with
        | some e => some (.error e, w1)
        | none =>
          let w2 := if added then { w1 with available_space := w1.available_space - 1 } else w1
          let qa := if added then qty_added + 1 else qty_added
          match (w2.rows.get? r).bind
              (fun rw => (rw.columns.get? c).map (fun col => (rw, col))) with
          | none => none
          | some (rw, col) =>
            if z + 1 == col.zones.length + 1 then
              if c + 1 == rw.columns.length + 1 then
                fillLoop fuel w2 product_id qty expiry_date qa (r + 1) 1 1
              else
                fillLoop fuel w2 product_id qty expiry_date qa r (c + 1) 1
            else
              fillLoop fuel w2 product_id qty expiry_date qa r c (z + 1)
    else some (.ok (), w)

/-- Model of `Warehouse::add_items_by_qty` (warehouse.rs lines 866-1005):
capacity fast-path, then Case A (product absent), Case B (present and
contiguous) or Case C (present and scattered). -/
def Warehouse.add_items_by_qty (fuel : Nat) (w : Warehouse) (product_id qty : Nat)
    (expiry_date : Option Nat) : Option (Except ErrorKind Unit × Warehouse) :=
  if qty > w.available_space then some (.error .InsufficientSpace, w)
  else if !w.contains_product product_id then
    match w.find_contiguous_space qty with
    | Except.ok rcz => caseALoop fuel w product_id qty expiry_date 0 rcz.1 rcz.2.1 rcz.2.2
    | Except.error e => some (.error e, w)
  else if w.is_product_stored_contiguously product_id then
    match (w.find_all_item_occurences product_id).getLast? with
    | some rcz => fillLoop fuel w product_id qty expiry_date 0 rcz.1 rcz.2.1 rcz.2.2
    | none => none
  else
    let existing_items := w.find_all_item_occurences product_id
    let total_items := existing_items.length + qty
    match w.find_contiguous_space total_items with
    | Except.ok rcz =>
      let grouped_items := w.group_items_by_expiration existing_items
      match w.move_items_to_contiguous_space grouped_items with
      | none => none
      | some (Except.error e, w1) => some (.error e, w1)
      | some (Except.ok _, w1) => fillLoop fuel w1 product_id qty expiry_date 0 rcz.1 rcz.2.1 rcz.2.2
    | Except.error e => some (.error e, w)

/-- State after one successful single-slot `add_item` (test-state builder). -/
def placeItem (w : Warehouse) (r c z pid : Nat) (d : Option Nat) : Warehouse :=
  (w.add_item r c z (ProductItem.new pid r c z d)).2

/-- Empty 1 row x 1 column x 2 zones warehouse. -/
def wC1 : Warehouse := Warehouse.new.initialize_rows 1 1 2

/-- Empty 1 x 1 x 3 warehouse. -/
def wC2 : Warehouse := Warehouse.new.initialize_rows 1 1 3

/-- 1 x 1 x 3 warehouse holding product 5 in zones 1-3 with expiry keys
20250101, 20250301, 20250201 (the spec's Example 3 layout). -/
def wC3 : Warehouse :=
  placeItem (placeItem (placeItem (Warehouse.new.initialize_rows 1 1 3)
    1 1 1 5 (some 20250101)) 1 1 2 5 (some 20250301)) 1 1 3 5 (some 20250201)

/-- 2 x 3 x 3 warehouse holding product 9 (undated) scattered at
row 1 / column 1 / zones 1 and 3. -/
def wC4 : Warehouse :=
  placeItem (placeItem (Warehouse.new.initialize_rows 2 3 3) 1 1 1 9 none) 1 1 3 9 none

/-- Empty 1 x 1 x 2 warehouse (no occurrence of any product). -/
def wC6 : Warehouse := Warehouse.new.initialize_rows 1 1 2

/-- 1 x 1 x 3 warehouse holding a single unit of product 7 at zone 1. -/
def wC7 : Warehouse := placeItem (Warehouse.new.initialize_rows 1 1 3) 1 1 1 7 none

/-- The spec's Example 2 grid: 1 row x 2 columns x 3 zones; product 1 fills
column 1, product 2 occupies column 2 zone 1; two free zones remain. -/
def wEx2 : Warehouse :=
  placeItem (placeItem (placeItem (placeItem (Warehouse.new.initialize_rows 1 2 3)
    1 1 1 1 none) 1 1 2 1 none) 1 1 3 1 none) 1 2 1 2 none

/-- 1 x 1 x 2 warehouse with both zones occupied (products 3 and 4). -/
def wC9 : Warehouse :=
  placeItem (placeItem (Warehouse.new.initialize_rows 1 1 2) 1 1 1 3 none) 1 1 2 4 none

/-- 1 x 1 x 1 warehouse whose only zone is occupied by product 3. -/
def wC10 : Warehouse := placeItem (Warehouse.new.initialize_rows 1 1 1) 1 1 1 3 none

/-- Consecutive numbering check: the elements of the list carry numbers
`i, i + 1, i + 2, ...` under the projection `num`. -/
def numberedFrom {α : Type} (num : α → Nat) : List α → Nat → Bool
  | [], _ => true
  | x :: rest, i => num x == i && numberedFrom num rest (i + 1)

/-- Structural well-formedness of a column: the capacity counter equals the
zone count and the zones are numbered 1, 2, ... positionally — exactly the
shape `initialize_zones` builds and item placement/removal preserves. -/
def Column.wfb (col : Column) : Bool :=
  col.capacity == col.zones.length && numberedFrom Zone.zone_number col.zones 1

/-- Structural well-formedness of a row: columns numbered 1, 2, ...
positionally and each column well-formed. -/
def Row.wfb (row : Row) : Bool :=
  numberedFrom Column.column_number row.columns 1 && row.columns.all Column.wfb

/-- Structural well-formedness of a warehouse: rows numbered 1, 2, ...
positionally and each row well-formed. -/
def Warehouse.wfb (w : Warehouse) : Bool :=
  numberedFrom Row.row_number w.rows 1 && w.rows.all Row.wfb

/-- A run of `k` consecutive `'0'` markers starting at offset `i` of the
bitmap (spec language for the contiguous-space search). -/
def zeroRunAt (l : List Char) (k i : Nat) : Prop :=
  ∀ j, j < k → l.get? (i + j) = some '0'

instance (l : List Char) (k i : Nat) : Decidable (zeroRunAt l k i) :=
  Nat.decidableBallLT k (fun j _ => l.get? (i + j) = some '0')













/-- C1: the claim says every operation keeps the maintained counters equal to a
from-scratch recomputation. The code refutes it: on the empty 1x1x2 grid,
`add_items_by_qty(7, 1, None)` succeeds (Case A) but leaves
`grid.available_space = 0` while the row-level sum of `available_space` is 1
and the true number of empty zones is 1 — Case A decrements the grid counter
twice per placement (`Warehouse::add_item` already decrements it, then
warehouse.rs line 895 decrements it again). -/
theorem c1_case_a_breaks_counter_agreement :
    (Warehouse.add_items_by_qty 10 wC1 7 1 none).map
      (fun res => (isOkb res.1, res.2.available_space,
        (res.2.rows.map Row.available_space).sum, res.2.flat_map.count '0'))
    = some (true, 0, 1, 1) := by rfl

/-- C2: the claim says a successful `add_items(p, n, d)` decreases the grid's
`available_space` by exactly `n`. The code refutes it: on the empty 1x1x3 grid
with `available_space = 3`, `add_items_by_qty(7, 1, None)` succeeds, the
occurrence list of product 7 grows from 0 to 1 as claimed, but
`available_space` drops from 3 to 1 — a decrease of 2, not 1 (the Case A
double decrement, warehouse.rs lines 746-751 and 895). -/
theorem c2_available_space_drops_twice_qty :
    wC2.available_space = 3 ∧
    (Warehouse.add_items_by_qty 10 wC2 7 1 none).map
      (fun res => (isOkb res.1, res.2.available_space,
        (res.2.find_all_item_occurences 7).length))
    = some (true, 1, 1) := by exact ⟨rfl, rfl⟩

/-- C3: the claim (spec Example 3) says `remove_items(p, 2)` on occupants dated
2025-01-01, 2025-03-01, 2025-02-01 removes the 2025-01-01 and 2025-02-01
units. The code refutes it: `find_all_item_occurences` reports 0-based
column/zone indices, `get_item` interprets them as 1-based numbers, so every
dated occupant is missed, the `< qty` fallback fires, and `remove_all_items`
immediately fails with `ColumnNotFound (1, 0)` leaving all 3 units in place. -/
theorem c3_remove_by_qty_fails_on_example3 :
    Warehouse.remove_item_by_qty wC3 5 2 = (.error (.ColumnNotFound (1, 0)), wC3) ∧
    (wC3.find_all_item_occurences 5).length = 3 := by exact ⟨rfl, rfl⟩

/-- C4: the claim says a successful Case C placement leaves all occurrences of
the product in one contiguous region. The code refutes it: on the 2x3x3 grid
with product 9 scattered at zones 1 and 3 of row 1 / column 1,
`add_items_by_qty(9, 1, None)` takes Case C and returns success, but the three
resulting occurrences are not contiguous — the grouping step looks existing
occupants up with 0-based indices against 1-based numbers (and skips undated
occupants entirely), so the old units are never moved. -/
theorem c4_case_c_leaves_product_scattered :
    (Warehouse.add_items_by_qty 20 wC4 9 1 none).map
      (fun res => (isOkb res.1, res.2.is_product_stored_contiguously 9,
        (res.2.find_all_item_occurences 9).length))
    = some (true, false, 3) := by rfl

/-- Case B's fill loop never terminates on `wC7`: the cursor starts at the
mixed-base position (1, 0, 0) reported by `find_all_item_occurences`, the
`zone_mut` lookup (1-based `column_number`) never finds column 0, and the
cursor advance sits inside the failed `if let Some` branch, so every
iteration re-enters the loop with nothing changed. -/
theorem fillLoop_wC7_diverges (fuel : Nat) :
    fillLoop fuel wC7 7 1 none 0 1 0 0 = none := by
  induction fuel with
  | zero => rfl
  | succ n ih => exact ih

/-- C7: the claim says every allocator operation terminates, in particular
`add_items` in Case B (product present and stored contiguously). The code
refutes it: on the 1x1x3 grid holding one unit of product 7,
`add_items_by_qty(7, 1, None)` enters Case B and loops forever — the model
exhausts every fuel bound without completing. -/
theorem c7_add_items_case_b_diverges (fuel : Nat) :
    Warehouse.add_items_by_qty fuel wC7 7 1 none = none :=
  fillLoop_wC7_diverges fuel

theorem adjAll_iff_zip (p : Pos → Pos → Bool) (l : List Pos) :
    adjAll p l = true ↔ ∀ ab ∈ l.zip l.tail, p ab.1 ab.2 = true := by
  induction l with
  | nil => simp [adjAll]
  | cons a t ih =>
    cases t with
    | nil => simp [adjAll]
    | cons b rest =>
      simp only [adjAll, Bool.and_eq_true, ih, List.tail_cons, List.zip_cons_cons,
        List.forall_mem_cons]

theorem adjAll_eqkey_iff (f : Pos → Nat) (l : List Pos) :
    adjAll (fun a b => f a == f b) l = true ↔ ∀ a ∈ l, ∀ b ∈ l, f a = f b := by
  induction l with
  | nil => simp [adjAll]
  | cons a t ih =>
    cases t with
    | nil => simp [adjAll]
    | cons b rest =>
      rw [show adjAll (fun x y => f x == f y) (a :: b :: rest)
            = ((f a == f b) && adjAll (fun x y => f x == f y) (b :: rest)) from rfl,
        Bool.and_eq_true, ih]
      constructor
      · rintro ⟨hab, htail⟩
        have hab' : f a = f b := by simpa using hab
        have hall : ∀ x ∈ a :: b :: rest, f x = f b := by
          intro x hx
          rcases List.mem_cons.mp hx with rfl | hx'
          · exact hab'
          · exact htail x hx' b (List.mem_cons_self _ _)
        intro x hx y hy
        rw [hall x hx, hall y hy]
      · intro h
        refine ⟨by simpa using h a (by simp) b (by simp), ?_⟩
        intro x hx y hy
        exact h x (List.mem_cons_of_mem _ hx) y (List.mem_cons_of_mem _ hy)

theorem adjAll_fst_iff (l : List Pos) :
    adjAll (fun a b => a.1 == b.1) l = true ↔ ∀ a ∈ l, ∀ b ∈ l, a.1 = b.1 :=
  adjAll_eqkey_iff (fun p => p.1) l

theorem adjAll_snd1_iff (l : List Pos) :
    adjAll (fun a b => a.2.1 == b.2.1) l = true ↔ ∀ a ∈ l, ∀ b ∈ l, a.2.1 = b.2.1 :=
  adjAll_eqkey_iff (fun p => p.2.1) l

theorem adjAll_step_iff (l : List Pos) :
    adjAll (fun a b => b.2.2 == a.2.2 + 1) l = true ↔
      ∀ ab ∈ l.zip l.tail, ab.2.2.2 = ab.1.2.2 + 1 := by
  rw [adjAll_iff_zip]
  constructor
  · intro h ab hab; simpa using h ab hab
  · intro h ab hab; simpa using h ab hab

/-- C6 counterexample: the claim says `is_stored_contiguously(p)` is true when
`p` has zero occurrences; on the empty 1x1x2 grid product 7 has zero
occurrences, yet the code returns false (the `is_empty` early return at
warehouse.rs line 838). -/
theorem c6_counterexample_zero_occurrences :
    (wC6.find_all_item_occurences 7).length = 0 ∧
    wC6.is_product_stored_contiguously 7 = false := by exact ⟨rfl, rfl⟩

/-- C6 (amended): `is_stored_contiguously(p)` is FALSE when `p` has zero
occurrences; true when it has exactly one; and for two or more occurrences it
is true iff all occurrences share the same row, share the same column, and
their slot indices, in discovery order, form a strictly increasing run with
step 1. -/
theorem c6_amended_contiguity_characterisation (w : Warehouse) (pid : Nat) :
    w.is_product_stored_contiguously pid = true ↔
      (w.find_all_item_occurences pid ≠ [] ∧
        ((w.find_all_item_occurences pid).length = 1 ∨
          ((∀ a ∈ w.find_all_item_occurences pid, ∀ b ∈ w.find_all_item_occurences pid,
              a.1 = b.1) ∧
           (∀ a ∈ w.find_all_item_occurences pid, ∀ b ∈ w.find_all_item_occurences pid,
              a.2.1 = b.2.1) ∧
           (∀ ab ∈ (w.find_all_item_occurences pid).zip
                (w.find_all_item_occurences pid).tail,
              ab.2.2.2 = ab.1.2.2 + 1)))) := by
  have main : ∀ l : List Pos,
      (if l.isEmpty then false
       else if l.length == 1 then true
       else adjAll (fun a b => a.1 == b.1) l && adjAll (fun a b => a.2.1 == b.2.1) l &&
            adjAll (fun a b => b.2.2 == a.2.2 + 1) l) = true ↔
      (l ≠ [] ∧ (l.length = 1 ∨
        ((∀ a ∈ l, ∀ b ∈ l, a.1 = b.1) ∧ (∀ a ∈ l, ∀ b ∈ l, a.2.1 = b.2.1) ∧
         (∀ ab ∈ l.zip l.tail, ab.2.2.2 = ab.1.2.2 + 1)))) := by
    intro l
    cases l with
    | nil => simp
    | cons a t =>
      cases t with
      | nil => simp
      | cons b rest =>
        simp only [List.isEmpty_cons, List.length_cons, beq_iff_eq, Bool.false_eq_true,
          if_false]
        rw [if_neg (by omega : ¬rest.length + 1 + 1 = 1)]
        simp only [Bool.and_eq_true, adjAll_fst_iff, adjAll_snd1_iff, adjAll_step_iff]
        constructor
        · rintro ⟨⟨h1, h2⟩, h3⟩
          exact ⟨by simp, Or.inr ⟨h1, h2, h3⟩⟩
        · rintro ⟨-, h⟩
          rcases h with h | ⟨h1, h2, h3⟩
          · exact absurd h (by omega)
          · exact ⟨⟨h1, h2⟩, h3⟩
  exact main (w.find_all_item_occurences pid)

/-- Witness for C6 (amended): on the Example-2 grid product 1 fills the three
zones of column 1; the amended characterisation yields contiguity. -/
theorem c6_amended_witness : wEx2.is_product_stored_contiguously 1 = true :=
  (c6_amended_contiguity_characterisation wEx2 1).mpr
    ⟨by decide, Or.inr ⟨by decide, by decide, by decide⟩⟩

theorem zoneAdd_error_snd (z : Zone) (item : ProductItem) (e : ErrorKind)
    (h : (z.add item).1 = Except.error e) : (z.add item).2 = z := by
  cases hz : z.item.isSome with
  | true => simp [Zone.add, hz]
  | false => simp [Zone.add, hz] at h

theorem zoneRemove_error_snd (z : Zone) (e : ErrorKind)
    (h : z.remove.1 = Except.error e) : z.remove.2 = z := by
  cases hz : z.item.isNone with
  | true => simp [Zone.remove, hz]
  | false => simp [Zone.remove, hz] at h

theorem zoneAdd_ok_item_none (z : Zone) (item : ProductItem) (u : Unit)
    (h : (z.add item).1 = Except.ok u) : z.item = none := by
  cases hi : z.item with
  | none => rfl
  | some v => simp [Zone.add, hi] at h

theorem mutFirst_error_unchanged {α : Type} {p : α → Bool} {f : α → Except ErrorKind Unit × α}
    (hf : ∀ a e, (f a).1 = Except.error e → (f a).2 = a) :
    ∀ {l l' : List α} {e : ErrorKind},
      mutFirst p f l = some (Except.error e, l') → l' = l := by
  intro l
  induction l with
  | nil => intro l' e h; simp [mutFirst] at h
  | cons x xs ih =>
    intro l' e h
    cases hpx : p x with
    | true =>
      simp only [mutFirst, hpx, if_true, Option.some.injEq, Prod.mk.injEq] at h
      obtain ⟨h1, h2⟩ := h
      rw [← h2, hf x e h1]
    | false =>
      cases hm : mutFirst p f xs with
      | none => simp [mutFirst, hpx, hm] at h
      | some bxs =>
        obtain ⟨b, xs'⟩ := bxs
        simp only [mutFirst, hpx, hm, Bool.false_eq_true, if_false, Option.some.injEq,
          Prod.mk.injEq] at h
        obtain ⟨hb, hl⟩ := h
        subst hb
        rw [← hl, ih hm]

theorem colAddItem_error_snd (col : Column) (zn : Nat) (item : ProductItem) (e : ErrorKind)
    (h : (col.add_item zn item).1 = Except.error e) : (col.add_item zn item).2 = col := by
  unfold Column.add_item at *
  cases hm : mutFirst (fun z => z.zone_number == zn) (fun z => z.add item) col.zones with
  | none => simp [hm]
  | some bzs =>
    obtain ⟨b, zs'⟩ := bzs
    cases b with
    | ok u => simp [hm] at h
    | error e' =>
      have hz : zs' = col.zones :=
        mutFirst_error_unchanged (fun a e0 h0 => zoneAdd_error_snd a item e0 h0) hm
      simp [hm, hz]

theorem colRemoveItem_error_snd (col : Column) (zn : Nat) (e : ErrorKind)
    (h : (col.remove_item zn).1 = Except.error e) : (col.remove_item zn).2 = col := by
  unfold Column.remove_item at *
  cases hm : mutFirst (fun z => z.zone_number == zn) (fun z => z.remove) col.zones with
  | none => simp [hm]
  | some bzs =>
    obtain ⟨b, zs'⟩ := bzs
    cases b with
    | ok u => simp [hm] at h
    | error e' =>
      have hz : zs' = col.zones :=
        mutFirst_error_unchanged (fun a e0 h0 => zoneRemove_error_snd a e0 h0) hm
      simp [hm, hz]

theorem rowAddItem_error_snd (row : Row) (cn zn : Nat) (item : ProductItem) (e : ErrorKind)
    (h : (row.add_item cn zn item).1 = Except.error e) : (row.add_item cn zn item).2 = row := by
  unfold Row.add_item at *
  cases hm : mutFirst (fun c => c.column_number == cn)
      (fun c => c.add_item zn item) row.columns with
  | none => simp [hm]
  | some bcs =>
    obtain ⟨b, cs'⟩ := bcs
    cases b with
    | ok u => simp [hm] at h
    | error e' =>
      have hc : cs' = row.columns :=
        mutFirst_error_unchanged
          (fun a e0 h0 => colAddItem_error_snd a zn item e0 h0) hm
      simp [hm, hc]

theorem rowRemoveItem_error_snd (row : Row) (cn zn : Nat) (e : ErrorKind)
    (h : (row.remove_item cn zn).1 = Except.error e) : (row.remove_item cn zn).2 = row := by
  unfold Row.remove_item at *
  cases hm : mutFirst (fun c => c.column_number == cn)
      (fun c => c.remove_item zn) row.columns with
  | none => simp [hm]
  | some bcs =>
    obtain ⟨b, cs'⟩ := bcs
    cases b with
    | ok u => simp [hm] at h
    | error e' =>
      have hc : cs' = row.columns :=
        mutFirst_error_unchanged (fun a e0 h0 => colRemoveItem_error_snd a zn e0 h0) hm
      simp [hm, hc]

theorem whAddItem_error_snd (w : Warehouse) (rn cn zn : Nat) (item : ProductItem)
    (e : ErrorKind) (h : (w.add_item rn cn zn item).1 = Except.error e) :
    (w.add_item rn cn zn item).2 = w := by
  unfold Warehouse.add_item at *
  cases hm : mutFirst (fun r => r.row_number == rn)
      (fun r => r.add_item cn zn item) w.rows with
  | none => simp [hm]
  | some brs =>
    obtain ⟨b, rs'⟩ := brs
    cases b with
    | ok u => simp [hm] at h
    | error e' =>
      have hr : rs' = w.rows :=
        mutFirst_error_unchanged
          (fun a e0 h0 => rowAddItem_error_snd a cn zn item e0 h0) hm
      simp [hm, hr]

theorem whRemoveItem_error_snd (w : Warehouse) (rn cn zn : Nat) (e : ErrorKind)
    (h : (w.remove_item rn cn zn).1 = Except.error e) : (w.remove_item rn cn zn).2 = w := by
  unfold Warehouse.remove_item at *
  cases hm : mutFirst (fun r => r.row_number == rn)
      (fun r => r.remove_item cn zn) w.rows with
  | none => simp [hm]
  | some brs =>
    obtain ⟨b, rs'⟩ := brs
    cases b with
    | ok u => simp [hm] at h
    | error e' =>
      have hr : rs' = w.rows :=
        mutFirst_error_unchanged (fun a e0 h0 => rowRemoveItem_error_snd a cn zn e0 h0) hm
      simp [hm, hr]

/-- C10: whenever the single-slot placement `Warehouse::add_item` returns any
error (`RowNotFound`, `ColumnNotFound`, `ZoneNotFound` or `ZoneOccupied`), the
warehouse is left completely unchanged — no occupant and no counter at any
level is modified. -/
theorem c10_add_item_error_leaves_warehouse_unchanged (w : Warehouse) (rn cn zn : Nat)
    (item : ProductItem) (e : ErrorKind) (w' : Warehouse)
    (h : w.add_item rn cn zn item = (.error e, w')) : w' = w := by
  have h1 : (w.add_item rn cn zn item).1 = Except.error e := by rw [h]
  have h2 : (w.add_item rn cn zn item).2 = w' := by rw [h]
  rw [← h2, whAddItem_error_snd w rn cn zn item e h1]

/-- Witness for C10: adding product 4 to the already occupied single zone of
`wC10` fails with `ZoneOccupied` and leaves the warehouse unchanged. -/
theorem c10_witness :
    (Warehouse.add_item wC10 1 1 1 (ProductItem.new 4 1 1 1 none)).2 = wC10 :=
  c10_add_item_error_leaves_warehouse_unchanged wC10 1 1 1 (ProductItem.new 4 1 1 1 none)
    (.ZoneOccupied (1, 1, 1)) _ (by rfl)

theorem zoneAdd_number_snd (z : Zone) (item : ProductItem) :
    ((z.add item).2).zone_number = z.zone_number := by
  cases hz : z.item.isSome <;> simp [Zone.add, hz]

theorem colAddItem_number_snd (col : Column) (zn : Nat) (item : ProductItem) :
    ((col.add_item zn item).2).column_number = col.column_number := by
  unfold Column.add_item
  cases hm : mutFirst (fun z => z.zone_number == zn) (fun z => z.add item) col.zones with
  | none => simp [hm]
  | some bzs =>
    obtain ⟨b, zs'⟩ := bzs
    cases b <;> simp [hm]

theorem rowAddItem_number_snd (row : Row) (cn zn : Nat) (item : ProductItem) :
    ((row.add_item cn zn item).2).row_number = row.row_number := by
  unfold Row.add_item
  cases hm : mutFirst (fun c => c.column_number == cn)
      (fun c => c.add_item zn item) row.columns with
  | none => simp [hm]
  | some bcs =>
    obtain ⟨b, cs'⟩ := bcs
    cases b <;> simp [hm]

theorem mutFirst_find_pres {α β : Type} {p q : α → Bool} {f : α → β × α}
    (hp : ∀ a, p (f a).2 = p a) (hq : ∀ a, q (f a).2 = q a) :
    ∀ {l l' : List α} {b : β}, mutFirst p f l = some (b, l') →
      l'.find? q = l.find? q ∨
      ∃ a, l.find? q = some a ∧ p a = true ∧ (f a).1 = b ∧ l'.find? q = some (f a).2 := by
  intro l
  induction l with
  | nil => intro l' b h; simp [mutFirst] at h
  | cons x xs ih =>
    intro l' b h
    cases hpx : p x with
    | true =>
      simp only [mutFirst, hpx, if_true, Option.some.injEq, Prod.mk.injEq] at h
      obtain ⟨h1, h2⟩ := h
      cases hqx : q x with
      | true =>
        right
        refine ⟨x, ?_, hpx, h1, ?_⟩
        · simp [List.find?, hqx]
        · rw [← h2]; simp [List.find?, hq x, hqx]
      | false =>
        left
        rw [← h2]
        simp [List.find?, hq x, hqx]
    | false =>
      cases hm : mutFirst p f xs with
      | none => simp [mutFirst, hpx, hm] at h
      | some bxs =>
        obtain ⟨b', xs'⟩ := bxs
        simp only [mutFirst, hpx, Bool.false_eq_true, if_false, hm, Option.some.injEq,
          Prod.mk.injEq] at h
        obtain ⟨hb, hl⟩ := h
        subst hb
        cases hqx : q x with
        | true =>
          left; rw [← hl]; simp [List.find?, hqx]
        | false =>
          rcases ih hm with hsame | ⟨a, ha1, ha2, ha3, ha4⟩
          · left; rw [← hl]; simp [List.find?, hqx, hsame]
          · right
            refine ⟨a, ?_, ha2, ha3, ?_⟩
            · simp [List.find?, hqx, ha1]
            · rw [← hl]; simp [List.find?, hqx, ha4]

theorem colAddItem_ok_zone_pres (col : Column) (zn : Nat) (item : ProductItem) (u : Unit)
    (h : (col.add_item zn item).1 = Except.ok u) (qz : Nat) :
    ((col.add_item zn item).2).zone qz = col.zone qz ∨
      ∃ a : Zone, col.zone qz = some a ∧ a.item = none := by
  unfold Column.add_item at *
  cases hm : mutFirst (fun z => z.zone_number == zn) (fun z => z.add item) col.zones with
  | none => simp [hm] at h
  | some bzs =>
    obtain ⟨b, zs'⟩ := bzs
    cases b with
    | error e => simp [hm] at h
    | ok u' =>
      have hpres := mutFirst_find_pres
        (p := fun (z : Zone) => z.zone_number == zn) (q := fun (z : Zone) => z.zone_number == qz)
        (f := fun (z : Zone) => z.add item)
        (fun a => by simp [zoneAdd_number_snd]) (fun a => by simp [zoneAdd_number_snd]) hm
      rcases hpres with hsame | ⟨a, ha1, ha2, ha3, ha4⟩
      · left; simp [hm, Column.zone, hsame]
      · right
        exact ⟨a, by simpa [Column.zone] using ha1, zoneAdd_ok_item_none a item u' ha3⟩

theorem rowAddItem_ok_zone_pres (row : Row) (cn zn : Nat) (item : ProductItem) (u : Unit)
    (h : (row.add_item cn zn item).1 = Except.ok u) (qc qz : Nat) :
    ((row.add_item cn zn item).2).zone qc qz = row.zone qc qz ∨
      ∃ a : Zone, row.zone qc qz = some a ∧ a.item = none := by
  unfold Row.add_item at *
  cases hm : mutFirst (fun c => c.column_number == cn)
      (fun c => c.add_item zn item) row.columns with
  | none => simp [hm] at h
  | some bcs =>
    obtain ⟨b, cs'⟩ := bcs
    cases b with
    | error e => simp [hm] at h
    | ok u' =>
      have hpres := mutFirst_find_pres
        (p := fun (c : Column) => c.column_number == cn) (q := fun (c : Column) => c.column_number == qc)
        (f := fun (c : Column) => c.add_item zn item)
        (fun a => by simp [colAddItem_number_snd])
        (fun a => by simp [colAddItem_number_snd]) hm
      rcases hpres with hsame | ⟨a, ha1, ha2, ha3, ha4⟩
      · left; simp [hm, Row.zone, Row.column, hsame]
      · rcases colAddItem_ok_zone_pres a zn item u' ha3 qz with hc1 | ⟨zz, hz1, hz2⟩
        · left
          simp [hm, Row.zone, Row.column, ha4, ha1, hc1]
        · right
          exact ⟨zz, by simp [Row.zone, Row.column, ha1, hz1], hz2⟩

theorem whAddItem_ok_zone_pres (w : Warehouse) (rn cn zn : Nat) (item : ProductItem)
    (u : Unit) (h : (w.add_item rn cn zn item).1 = Except.ok u) (qr qc qz : Nat) :
    ((w.add_item rn cn zn item).2).zone qr qc qz = w.zone qr qc qz ∨
      ∃ a : Zone, w.zone qr qc qz = some a ∧ a.item = none := by
  unfold Warehouse.add_item at *
  cases hm : mutFirst (fun r => r.row_number == rn)
      (fun r => r.add_item cn zn item) w.rows with
  | none => simp [hm] at h
  | some brs =>
    obtain ⟨b, rs'⟩ := brs
    cases b with
    | error e => simp [hm] at h
    | ok u' =>
      have hpres := mutFirst_find_pres
        (p := fun (r : Row) => r.row_number == rn) (q := fun (r : Row) => r.row_number == qr)
        (f := fun (r : Row) => r.add_item cn zn item)
        (fun a => by simp [rowAddItem_number_snd])
        (fun a => by simp [rowAddItem_number_snd]) hm
      rcases hpres with hsame | ⟨a, ha1, ha2, ha3, ha4⟩
      · left; simp [hm, Warehouse.zone, Warehouse.row, hsame]
      · rcases rowAddItem_ok_zone_pres a cn zn item u' ha3 qc qz with hr1 | ⟨zz, hz1, hz2⟩
        · left
          simp [hm, Warehouse.zone, Warehouse.row, ha4, ha1, hr1]
        · right
          exact ⟨zz, by simp [Warehouse.zone, Warehouse.row, ha1, hz1], hz2⟩

/-- C9: `move_item` creates the occupant at the destination before removing
the source, and a failed move never leaves the source half-processed: (1) on
any error result the source slot still holds exactly its original occupant;
(2) when the destination placement fails, that error is returned with the
warehouse completely unchanged. -/
theorem c9_move_item_atomic (w : Warehouse) (cur tgt : Pos) :
    (∀ e w', w.move_item cur tgt = (.error e, w') →
      w'.zone cur.1 cur.2.1 cur.2.2 = w.zone cur.1 cur.2.1 cur.2.2) ∧
    (∀ zn item, w.zone cur.1 cur.2.1 cur.2.2 = some zn → zn.item = some item →
      ∀ e w1, w.add_item tgt.1 tgt.2.1 tgt.2.2 (item.copy_at_zone tgt.1 tgt.2.1 tgt.2.2)
          = (.error e, w1) →
      w.move_item cur tgt = (.error e, w)) := by
  constructor
  · intro e w' h
    cases hz : w.zone cur.1 cur.2.1 cur.2.2 with
    | none =>
      simp only [Warehouse.move_item, hz, Prod.mk.injEq] at h
      rw [← h.2, hz]
    | some zn =>
      cases hi : zn.item with
      | none =>
        simp only [Warehouse.move_item, hz, hi, Prod.mk.injEq] at h
        rw [← h.2, hz]
      | some item =>
        cases hadd : w.add_item tgt.1 tgt.2.1 tgt.2.2
            (item.copy_at_zone tgt.1 tgt.2.1 tgt.2.2) with
        | mk r1 w1 =>
          cases r1 with
          | error e1 =>
            simp only [Warehouse.move_item, hz, hi, hadd, Prod.mk.injEq] at h
            have hw1 : w1 = w := by
              have h2 := whAddItem_error_snd w tgt.1 tgt.2.1 tgt.2.2
                (item.copy_at_zone tgt.1 tgt.2.1 tgt.2.2) e1 (by rw [hadd])
              rw [hadd] at h2; exact h2
            rw [← h.2, hw1]
            exact hz
          | ok u =>
            cases hrem : w1.remove_item cur.1 cur.2.1 cur.2.2 with
            | mk r2 w2 =>
              cases r2 with
              | ok u2 => simp [Warehouse.move_item, hz, hi, hadd, hrem] at h
              | error e2 =>
                simp only [Warehouse.move_item, hz, hi, hadd, hrem, Prod.mk.injEq] at h
                have hw2 : w2 = w1 := by
                  have h2 := whRemoveItem_error_snd w1 cur.1 cur.2.1 cur.2.2 e2
                    (by rw [hrem])
                  rw [hrem] at h2; exact h2
                rw [← h.2, hw2]
                have hp := whAddItem_ok_zone_pres w tgt.1 tgt.2.1 tgt.2.2
                  (item.copy_at_zone tgt.1 tgt.2.1 tgt.2.2) u (by rw [hadd])
                  cur.1 cur.2.1 cur.2.2
                simp only [hadd] at hp
                rcases hp with h1 | ⟨a, ha1, ha2⟩
                · rw [h1]
                  exact hz
                · rw [hz] at ha1
                  injection ha1 with haz
                  rw [← haz, hi] at ha2
                  simp at ha2
  · intro zn item hzn hitem e w1 hadd
    have hw1 : w1 = w := by
      have h2 := whAddItem_error_snd w tgt.1 tgt.2.1 tgt.2.2
        (item.copy_at_zone tgt.1 tgt.2.1 tgt.2.2) e (by rw [hadd])
      rw [hadd] at h2; exact h2
    simp only [Warehouse.move_item, hzn, hitem, hadd, hw1]

/-- Witness for C9: moving the occupant of zone (1,1,1) of `wC9` onto the
occupied zone (1,1,2) fails, and the source slot is untouched. -/
theorem c9_witness :
    (Warehouse.move_item wC9 (1, 1, 1) (1, 1, 2)).2.zone 1 1 1 = wC9.zone 1 1 1 :=
  (c9_move_item_atomic wC9 (1, 1, 1) (1, 1, 2)).1 (.ZoneOccupied (1, 1, 2)) _ (by rfl)

theorem replicate_zero_isPrefixOf_iff (k : Nat) (l : List Char) :
    (List.replicate k '0').isPrefixOf l = true ↔
      (k ≤ l.length ∧ ∀ j, j < k → l.get? j = some '0') := by
  induction k generalizing l with
  | zero => simp [List.isPrefixOf]
  | succ k ih =>
    cases l with
    | nil => simp [List.replicate_succ, List.isPrefixOf]
    | cons c rest =>
      rw [List.replicate_succ]
      simp only [List.isPrefixOf, Bool.and_eq_true, beq_iff_eq, ih, List.length_cons]
      constructor
      · rintro ⟨hc, hlen, hget⟩
        refine ⟨by omega, ?_⟩
        intro j hj
        cases j with
        | zero => simp [hc.symm]
        | succ j' => simpa using hget j' (by omega)
      · rintro ⟨hlen, hget⟩
        refine ⟨?_, by omega, ?_⟩
        · have h0 := hget 0 (by omega)
          simp at h0
          exact h0.symm
        · intro j hj
          have := hget (j + 1) (by omega)
          simpa using this

theorem strFind_eq_some_iff (needle l : List Char) (i : Nat) :
    strFind needle l = some i ↔
      (needle.isPrefixOf (l.drop i) = true ∧
        ∀ j, j < i → ¬ needle.isPrefixOf (l.drop j) = true) := by
  induction l generalizing i with
  | nil =>
    cases hne : needle with
    | nil =>
      cases i with
      | zero => simp [strFind, List.isPrefixOf]
      | succ n =>
        simp only [strFind, List.isEmpty_nil, if_true, List.drop_nil, List.isPrefixOf,
          Option.some.injEq]
        constructor
        · intro h; omega
        · rintro ⟨-, h2⟩; exact absurd trivial (h2 0 (by omega))
    | cons a as =>
      simp [strFind, List.isPrefixOf]
  | cons c rest ih =>
    by_cases hpre : needle.isPrefixOf (c :: rest) = true
    · cases i with
      | zero => simp [strFind, hpre]
      | succ n =>
        simp only [strFind, hpre, if_true, Option.some.injEq]
        constructor
        · intro h; omega
        · rintro ⟨-, h2⟩
          exact absurd hpre (by simpa using h2 0 (by omega))
    · have hpre' : needle.isPrefixOf (c :: rest) = false := by
        cases hx : needle.isPrefixOf (c :: rest) with
        | true => exact absurd hx hpre
        | false => rfl
      cases i with
      | zero =>
        simp only [strFind, hpre', Bool.false_eq_true, if_false, List.drop_zero]
        constructor
        · intro h
          rcases Option.map_eq_some'.mp h with ⟨a, -, ha⟩
          omega
        · rintro ⟨h1, -⟩
          exact h1.elim
      | succ n =>
        simp only [strFind, hpre', Bool.false_eq_true, if_false]
        constructor
        · intro h
          have h' : strFind needle rest = some n := by
            rcases Option.map_eq_some'.mp h with ⟨a, ha, han⟩
            have haa : a = n := by omega
            rw [← haa]; exact ha
          have hh := (ih n).mp h'
          refine ⟨by simpa using hh.1, ?_⟩
          intro j hj
          cases j with
          | zero => simpa using hpre
          | succ m => simpa using hh.2 m (by omega)
        · rintro ⟨h1, h2⟩
          have htail : strFind needle rest = some n := by
            apply (ih n).mpr
            refine ⟨by simpa using h1, ?_⟩
            intro m hm
            have := h2 (m + 1) (by omega)
            simpa using this
          simp [htail]

theorem zeroRunAt_iff_isPrefixOf (l : List Char) (k i : Nat) :
    zeroRunAt l k i ↔ (List.replicate k '0').isPrefixOf (l.drop i) = true := by
  rw [replicate_zero_isPrefixOf_iff]
  constructor
  · intro h
    refine ⟨?_, ?_⟩
    · cases k with
      | zero => exact Nat.zero_le _
      | succ m =>
        have hm := h m (by omega)
        rcases List.get?_eq_some.mp hm with ⟨hlt, -⟩
        rw [List.length_drop]
        omega
    · intro j hj
      rw [List.get?_drop]
      exact h j hj
  · rintro ⟨hlen, hget⟩ j hj
    rw [← List.get?_drop]
    exact hget j hj

theorem numberedFrom_get? {α : Type} (num : α → Nat) :
    ∀ (l : List α) (b : Nat), numberedFrom num l b = true →
      ∀ n x, l.get? n = some x → num x = b + n := by
  intro l
  induction l with
  | nil => intro b h n x hx; simp at hx
  | cons y ys ih =>
    intro b h n x hx
    simp only [numberedFrom, Bool.and_eq_true, beq_iff_eq] at h
    obtain ⟨h1, h2⟩ := h
    cases n with
    | zero =>
      simp only [List.get?] at hx
      injection hx with hx
      rw [← hx]; omega
    | succ m =>
      have := ih (b + 1) h2 m x (by simpa using hx)
      omega

theorem find_numbered {α : Type} (num : α → Nat) :
    ∀ (l : List α) (b : Nat), numberedFrom num l (b + 1) = true →
      ∀ (n : Nat) (x : α), l.get? n = some x →
        l.find? (fun y => num y == b + n + 1) = some x := by
  intro l
  induction l with
  | nil => intro b h n x hx; simp at hx
  | cons y ys ih =>
    intro b h n x hx
    simp only [numberedFrom, Bool.and_eq_true, beq_iff_eq] at h
    obtain ⟨h1, h2⟩ := h
    cases n with
    | zero =>
      simp only [List.get?] at hx
      injection hx with hx
      subst hx
      simp [List.find?, h1]
    | succ m =>
      have hne : (num y == b + (m + 1) + 1) = false := by
        simp only [beq_eq_false_iff_ne, ne_eq, h1]
        omega
      simp only [List.find?, hne]
      rw [show b + (m + 1) + 1 = (b + 1) + m + 1 from by omega]
      exact ih (b + 1) h2 m x (by simpa using hx)

theorem col_wfb_cap {col : Column} (h : col.wfb = true) :
    col.capacity = col.zones.length := by
  simp only [Column.wfb, Bool.and_eq_true, beq_iff_eq] at h
  exact h.1

theorem col_wfb_numbered {col : Column} (h : col.wfb = true) :
    numberedFrom Zone.zone_number col.zones 1 = true := by
  simp only [Column.wfb, Bool.and_eq_true] at h
  exact h.2

theorem row_wfb_numbered {row : Row} (h : row.wfb = true) :
    numberedFrom Column.column_number row.columns 1 = true := by
  simp only [Row.wfb, Bool.and_eq_true] at h
  exact h.1

theorem row_wfb_cols {row : Row} (h : row.wfb = true) :
    ∀ col ∈ row.columns, col.wfb = true := by
  simp only [Row.wfb, Bool.and_eq_true, List.all_eq_true] at h
  exact h.2

theorem wh_wfb_numbered {w : Warehouse} (h : w.wfb = true) :
    numberedFrom Row.row_number w.rows 1 = true := by
  simp only [Warehouse.wfb, Bool.and_eq_true] at h
  exact h.1

theorem wh_wfb_rows {w : Warehouse} (h : w.wfb = true) :
    ∀ row ∈ w.rows, row.wfb = true := by
  simp only [Warehouse.wfb, Bool.and_eq_true, List.all_eq_true] at h
  exact h.2

theorem cols_flat_length (cols : List Column) (h : ∀ col ∈ cols, col.wfb = true) :
    (cols.flatMap Column.flat_map).length = (cols.map Column.capacity).sum := by
  induction cols with
  | nil => simp
  | cons col rest ih =>
    simp only [List.flatMap_cons, List.length_append, List.map_cons, List.sum_cons]
    rw [ih (fun c hc => h c (List.mem_cons_of_mem _ hc))]
    have hc := col_wfb_cap (h col (List.mem_cons_self _ _))
    simp [Column.flat_map, hc]

theorem colSearch_spec :
    ∀ (cols : List Column) (idx cum rel : Nat), cum ≤ rel →
      (∀ col ∈ cols, col.wfb = true) →
      ∀ ch, (cols.flatMap Column.flat_map).get? (rel - cum) = some ch →
      ∃ ci zi zone, colSearch rel cols idx cum = some (idx + ci, zi) ∧
        (cols.get? ci).bind (fun c => c.zones.get? zi) = some zone ∧
        (if zone.is_empty then '0' else '1') = ch := by
  intro cols
  induction cols with
  | nil => intro idx cum rel hcum hwf ch hch; simp at hch
  | cons col rest ih =>
    intro idx cum rel hcum hwf ch hch
    have hcap : col.capacity = col.zones.length :=
      col_wfb_cap (hwf col (List.mem_cons_self _ _))
    have hflat : col.flat_map.length = col.zones.length := by simp [Column.flat_map]
    by_cases hlt : rel < cum + col.capacity
    · have hidx : rel - cum < col.flat_map.length := by omega
      rw [List.flatMap_cons, List.get?_append hidx] at hch
      unfold Column.flat_map at hch
      rw [List.get?_map] at hch
      cases hz : col.zones.get? (rel - cum) with
      | none => rw [hz] at hch; simp at hch
      | some zone =>
        rw [hz] at hch
        simp only [Option.map_some', Option.some.injEq] at hch
        refine ⟨0, rel - cum, zone, ?_, by simpa using hz, hch⟩
        simp [colSearch, hlt]
    · have hge : cum + col.capacity ≤ rel := by omega
      have hlen : col.flat_map.length ≤ rel - cum := by omega
      rw [List.flatMap_cons, List.get?_append_right hlen] at hch
      have harith : rel - cum - col.flat_map.length = rel - (cum + col.capacity) := by omega
      rw [harith] at hch
      obtain ⟨ci, zi, zone, hs, hz, hb⟩ :=
        ih (idx + 1) (cum + col.capacity) rel hge
          (fun c hc => hwf c (List.mem_cons_of_mem _ hc)) ch hch
      refine ⟨ci + 1, zi, zone, ?_, by simpa using hz, hb⟩
      rw [show idx + (ci + 1) = idx + 1 + ci from by omega]
      simpa [colSearch, hlt] using hs

theorem rowSearch_spec :
    ∀ (rows : List Row) (idx cum pos : Nat), cum ≤ pos →
      (∀ row ∈ rows, row.wfb = true) →
      ∀ ch, (rows.flatMap Row.flat_map).get? (pos - cum) = some ch →
      ∃ ri ci zi zone, rowSearch pos rows idx cum = some (idx + ri + 1, ci + 1, zi + 1) ∧
        (rows.get? ri).bind (fun r => (r.columns.get? ci).bind (fun c => c.zones.get? zi))
          = some zone ∧
        (if zone.is_empty then '0' else '1') = ch := by
  intro rows
  induction rows with
  | nil => intro idx cum pos hcum hwf ch hch; simp at hch
  | cons row rest ih =>
    intro idx cum pos hcum hwf ch hch
    have hrwf : row.wfb = true := hwf row (List.mem_cons_self _ _)
    have hlen : row.flat_map.length = (row.columns.map Column.capacity).sum := by
      have := cols_flat_length row.columns (row_wfb_cols hrwf)
      simpa [Row.flat_map] using this
    by_cases hlt : pos < cum + (row.columns.map Column.capacity).sum
    · have hidx : pos - cum < row.flat_map.length := by omega
      rw [List.flatMap_cons, List.get?_append hidx] at hch
      have hch' : (row.columns.flatMap Column.flat_map).get? (pos - cum - 0) = some ch := by
        simpa [Row.flat_map] using hch
      obtain ⟨ci, zi, zone, hs, hz, hb⟩ :=
        colSearch_spec row.columns 0 0 (pos - cum) (Nat.zero_le _) (row_wfb_cols hrwf) ch hch'
      refine ⟨0, ci, zi, zone, ?_, by simpa using hz, hb⟩
      simp [rowSearch, hlt, hs]
    · have hge : cum + (row.columns.map Column.capacity).sum ≤ pos := by omega
      have hl2 : row.flat_map.length ≤ pos - cum := by omega
      rw [List.flatMap_cons, List.get?_append_right hl2] at hch
      have harith : pos - cum - row.flat_map.length
          = pos - (cum + (row.columns.map Column.capacity).sum) := by omega
      rw [harith] at hch
      obtain ⟨ri, ci, zi, zone, hs, hz, hb⟩ :=
        ih (idx + 1) (cum + (row.columns.map Column.capacity).sum) pos hge
          (fun r hr => hwf r (List.mem_cons_of_mem _ hr)) ch hch
      refine ⟨ri + 1, ci, zi, zone, ?_, by simpa using hz, hb⟩
      rw [show idx + (ri + 1) + 1 = idx + 1 + ri + 1 from by omega]
      simpa [rowSearch, hlt] using hs

theorem warehouse_row_lookup {w : Warehouse} (h : w.wfb = true) {ri : Nat} {row : Row}
    (hget : w.rows.get? ri = some row) : w.row (ri + 1) = some row := by
  have hnum := wh_wfb_numbered h
  have := find_numbered Row.row_number w.rows 0 (by simpa using hnum) ri row hget
  simpa [Warehouse.row] using this

theorem row_column_lookup {row : Row} (h : row.wfb = true) {ci : Nat} {col : Column}
    (hget : row.columns.get? ci = some col) : row.column (ci + 1) = some col := by
  have hnum := row_wfb_numbered h
  have := find_numbered Column.column_number row.columns 0 (by simpa using hnum) ci col hget
  simpa [Row.column] using this

theorem column_zone_lookup {col : Column} (h : col.wfb = true) {zi : Nat} {zone : Zone}
    (hget : col.zones.get? zi = some zone) : col.zone (zi + 1) = some zone := by
  have hnum := col_wfb_numbered h
  have := find_numbered Zone.zone_number col.zones 0 (by simpa using hnum) zi zone hget
  simpa [Column.zone] using this

/-- C8: on a structurally well-formed warehouse (accurate capacity counters
and positional 1-based numbering, as built by `initialize_rows`), for every
index `i` inside the flattened bitmap, `flat_map_position_to_zone i` returns
a `(row, column, slot)` triple, the zone looked up at that triple exists, and
it is empty exactly when the bitmap character at offset `i` is `'0'`. -/
theorem c8_flat_bitmap_position_agreement (w : Warehouse) (h : w.wfb = true) (i : Nat)
    (ch : Char) (hch : w.flat_map.get? i = some ch) :
    ∃ r c z zone, w.flat_map_position_to_zone i = some (r, c, z) ∧
      w.zone r c z = some zone ∧ (zone.is_empty = true ↔ ch = '0') := by
  obtain ⟨ri, ci, zi, zone, hs, hz, hb⟩ :=
    rowSearch_spec w.rows 0 0 i (Nat.zero_le _) (wh_wfb_rows h) ch
      (by simpa [Warehouse.flat_map] using hch)
  cases hrow : w.rows.get? ri with
  | none => rw [hrow] at hz; simp at hz
  | some row =>
    rw [hrow] at hz
    have hz1 : (row.columns.get? ci).bind (fun c => c.zones.get? zi) = some zone := hz
    cases hcol : row.columns.get? ci with
    | none => rw [hcol] at hz1; simp at hz1
    | some col =>
      rw [hcol] at hz1
      have hz2 : col.zones.get? zi = some zone := hz1
      have hrwf := wh_wfb_rows h row (List.get?_mem hrow)
      have hcwf := row_wfb_cols hrwf col (List.get?_mem hcol)
      refine ⟨ri + 1, ci + 1, zi + 1, zone, by simpa using hs, ?_, ?_⟩
      · show (w.row (ri + 1)).bind (fun r => r.zone (ci + 1) (zi + 1)) = some zone
        rw [warehouse_row_lookup h hrow]
        show row.zone (ci + 1) (zi + 1) = some zone
        show (row.column (ci + 1)).bind (fun c => c.zone (zi + 1)) = some zone
        rw [row_column_lookup hrwf hcol]
        show col.zone (zi + 1) = some zone
        exact column_zone_lookup hcwf hz2
      · constructor
        · intro hemp
          rw [hemp] at hb
          simpa using hb.symm
        · intro hch0
          cases he : zone.is_empty with
          | true => rfl
          | false =>
            rw [he] at hb
            simp only [if_false, Bool.false_eq_true] at hb
            rw [hch0] at hb
            exact absurd hb (by decide)

/-- Witness for C8 at the Example-2 grid: offset 4 of the bitmap maps to
slot (1, 2, 2), which exists and is empty. -/
theorem c8_witness :
    ∃ r c z zone, wEx2.flat_map_position_to_zone 4 = some (r, c, z) ∧
      wEx2.zone r c z = some zone ∧ (zone.is_empty = true ↔ '0' = '0') :=
  c8_flat_bitmap_position_agreement wEx2 (by decide) 4 '0' (by rfl)

theorem strFind_zero_run_iff (l : List Char) (k i : Nat) :
    strFind (List.replicate k '0') l = some i ↔
      (zeroRunAt l k i ∧ ∀ j, j < i → ¬ zeroRunAt l k j) := by
  rw [strFind_eq_some_iff]
  constructor
  · rintro ⟨h1, h2⟩
    exact ⟨(zeroRunAt_iff_isPrefixOf _ _ _).mpr h1,
      fun j hj hr => h2 j hj ((zeroRunAt_iff_isPrefixOf _ _ _).mp hr)⟩
  · rintro ⟨h1, h2⟩
    exact ⟨(zeroRunAt_iff_isPrefixOf _ _ _).mp h1,
      fun j hj hp => h2 j hj ((zeroRunAt_iff_isPrefixOf _ _ _).mpr hp)⟩

/-- C5: `find_contiguous_space(k)` fails with `InsufficientSpace` exactly when
`k` exceeds the maintained `available_space` counter, and this capacity check
runs before any contiguity search; otherwise the search finds the least
offset of a run of `k` consecutive `'0'` markers in the flattened bitmap and
returns it mapped through `flat_map_position_to_zone` (so the result is
`NoContiguousSpace` when no run exists), and on a structurally well-formed
warehouse the run's start always maps to a concrete `(row, column, slot)`
triple, which is returned as success. -/
theorem c5_find_contiguous_space_spec (w : Warehouse) (k : Nat) :
    (w.find_contiguous_space k = .error .InsufficientSpace ↔ k > w.available_space) ∧
    (k ≤ w.available_space → (∀ i, ¬ zeroRunAt w.flat_map k i) →
      w.find_contiguous_space k = .error .NoContiguousSpace) ∧
    (k ≤ w.available_space → ∀ i, zeroRunAt w.flat_map k i →
      (∀ j, j < i → ¬ zeroRunAt w.flat_map k j) →
      w.find_contiguous_space k =
        (match w.flat_map_position_to_zone i with
         | some p => .ok p
         | none => .error .NoContiguousSpace)) ∧
    (w.wfb = true → k ≤ w.available_space → 1 ≤ k → ∀ i, zeroRunAt w.flat_map k i →
      (∀ j, j < i → ¬ zeroRunAt w.flat_map k j) →
      ∃ p, w.flat_map_position_to_zone i = some p ∧ w.find_contiguous_space k = .ok p) := by
  refine ⟨?_, ?_, ?_, ?_⟩
  · by_cases hk : k > w.available_space
    · simp [Warehouse.find_contiguous_space, hk]
    · constructor
      · intro h
        unfold Warehouse.find_contiguous_space at h
        rw [if_neg hk] at h
        cases hsf : strFind (List.replicate k '0') w.flat_map with
        | none => rw [hsf] at h; simp at h
        | some i =>
          rw [hsf] at h
          have h' : (match w.flat_map_position_to_zone i with
              | some zone => (Except.ok zone : Except ErrorKind Pos)
              | none => Except.error ErrorKind.NoContiguousSpace)
              = Except.error ErrorKind.InsufficientSpace := h
          cases hp : w.flat_map_position_to_zone i with
          | none => rw [hp] at h'; simp at h'
          | some p => rw [hp] at h'; simp at h'
      · intro h; exact absurd h hk
  · intro hk hnone
    unfold Warehouse.find_contiguous_space
    rw [if_neg (by omega : ¬ k > w.available_space)]
    cases hsf : strFind (List.replicate k '0') w.flat_map with
    | none => rfl
    | some i =>
      exact absurd ((strFind_zero_run_iff w.flat_map k i).mp hsf).1 (hnone i)
  · intro hk i hrun hleast
    unfold Warehouse.find_contiguous_space
    rw [if_neg (by omega : ¬ k > w.available_space)]
    rw [(strFind_zero_run_iff w.flat_map k i).mpr ⟨hrun, hleast⟩]
  · intro hwf hk hk1 i hrun hleast
    have hch : w.flat_map.get? i = some '0' := by
      have := hrun 0 (by omega)
      simpa using this
    obtain ⟨ri, ci, zi, zone, hs, -, -⟩ :=
      rowSearch_spec w.rows 0 0 i (Nat.zero_le _) (wh_wfb_rows hwf) '0'
        (by simpa [Warehouse.flat_map] using hch)
    have hp : w.flat_map_position_to_zone i = some (ri + 1, ci + 1, zi + 1) := by
      simpa using hs
    refine ⟨(ri + 1, ci + 1, zi + 1), hp, ?_⟩
    unfold Warehouse.find_contiguous_space
    rw [if_neg (by omega : ¬ k > w.available_space)]
    rw [(strFind_zero_run_iff w.flat_map k i).mpr ⟨hrun, hleast⟩]
    show (match w.flat_map_position_to_zone i with
        | some zone => (Except.ok zone : Except ErrorKind Pos)
        | none => Except.error ErrorKind.NoContiguousSpace)
        = Except.ok (ri + 1, ci + 1, zi + 1)
    rw [hp]

/-- Witness for C5 on the spec's Example-2 grid (2 free slots): requesting 3
slots hits the capacity fast-path (`InsufficientSpace`, not
`NoContiguousSpace`), and requesting 2 returns the position (1, 2, 2) of the
first run of 2 free slots, at bitmap offset 4. -/
theorem c5_witness :
    wEx2.find_contiguous_space 3 = .error .InsufficientSpace ∧
    wEx2.find_contiguous_space 2 = .ok (1, 2, 2) := by
  constructor
  · exact (c5_find_contiguous_space_spec wEx2 3).1.mpr (by decide)
  · obtain ⟨p, hp, hr⟩ := (c5_find_contiguous_space_spec wEx2 2).2.2.2 (by decide) (by decide)
      (by decide) 4 (by decide) (by decide)
    have hpv : wEx2.flat_map_position_to_zone 4 = some (1, 2, 2) := by rfl
    rw [hpv] at hp
    injection hp with hpe
    rw [hpe]
    exact hr

end Market1
